import Mathlib

/-!
Verification of the Overshoot animation tool (OVERSHOOT_TOOL_v1.py).

The script is a Maya utility: a control panel whose button handler
`apply_overshoot` reads, for each selected object and each enabled channel
among translateX/Y/Z and rotateX/Y/Z, the previous and next keyframes
around the current time, computes an overshoot value
`current + (next - prev) * direction * intensity`, and writes it back as a
keyframe at the current time.

We embed the script shallowly: the Maya scene (objects, animation curves,
static attribute values, selection, current time) becomes an explicit
`Scene` state, the window widgets become a `UIState` record, the host API
calls (`findKeyframe`, `getAttr`, `setAttr`, `setKeyframe`, `select`)
become pure functions on `Scene`, and `apply_overshoot` becomes a
`Scene → Scene` function by explicit state passing.  Numeric values are
rationals.
-/

namespace OvershootTool

/-- A stored (time, value) control point of an animation curve. -/
structure Keyframe where
  time : ℚ
  value : ℚ
deriving DecidableEq, Repr

/-- Association-list lookup with decidable string equality
(Python dictionary read). -/
def alookup {α : Type} : List (String × α) → String → Option α
  | [], _ => none
  | (k, v) :: rest, key => if k = key then some v else alookup rest key

/-- Association-list update: replace the binding in place if the key is
present, append otherwise (Python dictionary assignment `d[k] = v`). -/
def aupdate {α : Type} : List (String × α) → String → α → List (String × α)
  | [], k, v => [(k, v)]
  | (k', v') :: rest, k, v =>
      if k' = k then (k, v) :: rest else (k', v') :: aupdate rest k v

/-- A scene object: its name, the keyable translate*/rotate* attributes the
host reports for it (`cmds.listAttr(obj, keyable=True, st=["translate*",
"rotate*"])`, the host returning no attributes is modelled by `[]`), its
animation curves per attribute, and its static (unanimated) attribute
values. -/
structure SceneObject where
  name : String
  keyableAttrs : List String
  curves : List (String × List Keyframe)
  staticVals : List (String × ℚ)
deriving DecidableEq, Repr

/-- Look an object up by name in a list (first object carrying the
name). -/
def findObjectIn : List SceneObject → String → Option SceneObject
  | [], _ => none
  | o :: rest, nm => if o.name = nm then some o else findObjectIn rest nm

/-- The animation curve of an object for one attribute (empty when the
attribute has no curve). -/
def curveOf (o : SceneObject) (attr : String) : List Keyframe :=
  (alookup o.curves attr).getD []

/-- The host scene state: objects, the current selection (object names),
the current time of the timeline, and the set of keys tagged with a
special color by the MEL snippet. -/
structure Scene where
  objects : List SceneObject
  selection : List String
  currentTime : ℚ
  coloredKeys : List (String × ℚ)
deriving DecidableEq, Repr

/-- Host call `cmds.findKeyframe(obj, attribute=attr, which="previous", time=(t,))`:
the time of the closest keyframe before `t`, `none` when no keyframe
exists before `t`. -/
def findPrevKey (ks : List Keyframe) (t : ℚ) : Option ℚ :=
  ks.foldl (fun acc k =>
    if k.time < t then
      match acc with
      | none => some k.time
      | some m => if m < k.time then some k.time else some m
    else acc) none

/-- Host call `cmds.findKeyframe(..., which="next", ...)`: the time of the closest
keyframe after `t`, `none` when no keyframe exists after `t`. -/
def findNextKey (ks : List Keyframe) (t : ℚ) : Option ℚ :=
  ks.foldl (fun acc k =>
    if t < k.time then
      match acc with
      | none => some k.time
      | some m => if k.time < m then some k.time else some m
    else acc) none

/-- The latest keyframe at or before `t` (stepped evaluation of the
curve). -/
def stepSample (ks : List Keyframe) (t : ℚ) : Option Keyframe :=
  ks.foldl (fun acc k =>
    if k.time ≤ t then
      match acc with
      | none => some k
      | some b => if b.time < k.time then some k else some b
    else acc) none

/-- Host call `cmds.getAttr(obj + "." + attr, time=t)`: the animated value of the
attribute at time `t` — the curve value when a key at or before `t`
exists, the static attribute value otherwise. -/
def getAttrVal (o : SceneObject) (attr : String) (t : ℚ) : ℚ :=
  match stepSample (curveOf o attr) t with
  | some k => k.value
  | none => (alookup o.staticVals attr).getD 0

/-- The window state: the raw intensity slider value, the six per-channel
checkboxes, the "Check All" checkbox, and the "Green" key-color
checkbox. -/
structure UIState where
  intensityRaw : ℚ
  checkAllBox : Bool
  txBox : Bool
  tyBox : Bool
  tzBox : Bool
  rxBox : Bool
  ryBox : Bool
  rzBox : Bool
  colorBox : Bool
deriving DecidableEq, Repr

/-- Field range of the intensity slider as configured in `create_window`
(`fieldMinValue=0`). -/
def intensityFieldMin : ℚ := 0

/-- Field range of the intensity slider as configured in `create_window`
(`fieldMaxValue=20`). -/
def intensityFieldMax : ℚ := 20

/-- Host call `cmds.floatSliderGrp(intensity_slider, query=True, value=True)`: the
host widget stores a value clamped to the configured field range, so the
query returns the raw value clamped to [0, 20]. -/
def queryIntensity (ui : UIState) : ℚ :=
  max intensityFieldMin (min intensityFieldMax ui.intensityRaw)

/-- The six processed channel names (the keys of the
`attribute_checkboxes` dictionary). -/
def sixChannels : List String :=
  ["translateX", "translateY", "translateZ", "rotateX", "rotateY", "rotateZ"]

/-- The `attribute_checkboxes` dictionary: channel name to checkbox
state. -/
def attribute_checkboxes (ui : UIState) : List (String × Bool) :=
  [("translateX", ui.txBox), ("translateY", ui.tyBox), ("translateZ", ui.tzBox),
   ("rotateX", ui.rxBox), ("rotateY", ui.ryBox), ("rotateZ", ui.rzBox)]

/-- Host call `cmds.checkBox(attribute_checkboxes[attr], query=True, value=True)`. -/
def channelChecked (ui : UIState) (attr : String) : Bool :=
  (alookup (attribute_checkboxes ui) attr).getD false

/-- Function `calculate_overshoot` (lines 27-28 of the script):
`value + (velocity * intensity)`. -/
def calculate_overshoot (value velocity intensity : ℚ) : ℚ :=
  value + velocity * intensity

/-- The body of the per-attribute loop of `apply_overshoot` (lines 53-73):
`none` when the attribute is skipped, `some v` when the overshoot value
`v` is recorded in `obj_data`.  An attribute is skipped when it is not one
of the six channels, when its checkbox is off, when the previous or next
keyframe is missing, or when the two keyframe times are equal; otherwise
`velocity = (next_value - prev_value) * direction` and
`v = calculate_overshoot(current_value, velocity, intensity)`. -/
def processAttr (ui : UIState) (direction intensity t : ℚ)
    (o : SceneObject) (attr : String) : Option ℚ :=
  if attr ∈ sixChannels then
    if channelChecked ui attr then
      match findPrevKey (curveOf o attr) t, findNextKey (curveOf o attr) t with
      | some previous_key, some next_key =>
          if previous_key ≠ next_key then
            let prev_value := getAttrVal o attr previous_key
            let next_value := getAttrVal o attr next_key
            let current_value := getAttrVal o attr t
            let velocity := (next_value - prev_value) * direction
            some (calculate_overshoot current_value velocity intensity)
          else none
      | _, _ => none
    else none
  else none

/-- The `obj_data` dictionary built for one object: each keyable attribute
that survives `processAttr` is mapped to its overshoot value. -/
def objData (ui : UIState) (direction intensity t : ℚ)
    (o : SceneObject) : List (String × ℚ) :=
  o.keyableAttrs.filterMap
    (fun attr => (processAttr ui direction intensity t o attr).map
      (fun v => (attr, v)))

/-- Host call `cmds.ls(selection=True)` resolves names; finding the object carrying
a selected name. -/
def findObject (s : Scene) (nm : String) : Option SceneObject :=
  findObjectIn s.objects nm

/-- One iteration of the `objects_data` loop (lines 46-76): for a selected
name, skip it when the object is missing, when its keyable-attribute
query returns nothing (`attrs is None`), or when its `obj_data` is empty;
otherwise bind the name to its `obj_data` (Python dictionary
assignment). -/
def objectsDataStep (ui : UIState) (direction intensity t : ℚ) (s : Scene)
    (acc : List (String × List (String × ℚ))) (nm : String) :
    List (String × List (String × ℚ)) :=
  match findObject s nm with
  | none => acc
  | some o =>
      if o.keyableAttrs.isEmpty then acc
      else
        let od := objData ui direction intensity t o
        if od.isEmpty then acc else aupdate acc nm od

/-- The `objects_data` dictionary (lines 44-76): for each selected object
whose keyable-attribute query succeeds and whose `obj_data` is non-empty,
bind the object name to its `obj_data`. -/
def buildObjectsData (ui : UIState) (direction intensity t : ℚ)
    (s : Scene) (sel : List String) : List (String × List (String × ℚ)) :=
  sel.foldl (objectsDataStep ui direction intensity t s) []

/-- Host call `cmds.select(l)`. -/
def selectS (s : Scene) (l : List String) : Scene :=
  { s with selection := l }

/-- Map an update over the objects carrying a given name. -/
def updateObject (s : Scene) (nm : String) (f : SceneObject → SceneObject) :
    Scene :=
  { s with objects := s.objects.map (fun o => if o.name = nm then f o else o) }

/-- Host call `cmds.setAttr(obj + "." + attr, value)`: store the value on the
attribute. -/
def setAttrS (s : Scene) (nm attr : String) (v : ℚ) : Scene :=
  updateObject s nm (fun o => { o with staticVals := aupdate o.staticVals attr v })

/-- Insert a keyframe at time `t`, replacing any existing key at `t`. -/
def insertKey : List Keyframe → ℚ → ℚ → List Keyframe
  | [], t, v => [⟨t, v⟩]
  | k :: rest, t, v =>
      if k.time = t then insertKey rest t v else k :: insertKey rest t v

/-- Host call `cmds.setKeyframe(obj, attribute=attr, time=(t,), value=v)`. -/
def setKeyframeS (s : Scene) (nm attr : String) (t v : ℚ) : Scene :=
  updateObject s nm
    (fun o => { o with curves := aupdate o.curves attr (insertKey (curveOf o attr) t v) })

/-- One iteration of the inner write loop (lines 82-84): `setAttr` then
`setKeyframe` for one (attribute, value) pair. -/
def writeAttrPair (t : ℚ) (nm : String) (s : Scene) (p : String × ℚ) : Scene :=
  setKeyframeS (setAttrS s nm p.1 p.2) nm p.1 t p.2

/-- One iteration of the outer write loop (lines 80-91): select the
object, write every recorded pair, and, when the color checkbox is on,
run the MEL snippet that tags the keys at the current time. -/
def writeObjEntry (ui : UIState) (t : ℚ) (s : Scene)
    (entry : String × List (String × ℚ)) : Scene :=
  let s1 := selectS s [entry.1]
  let s2 := entry.2.foldl (writeAttrPair t entry.1) s1
  if ui.colorBox then { s2 with coloredKeys := (entry.1, t) :: s2.coloredKeys }
  else s2

/-- Function `apply_overshoot(direction)` (lines 30-94) as a scene transformer:
read the current time and the intensity, build `objects_data` over the
selection, re-select the selection, run the write loop, restore the
selection and refresh (the refresh does not change scene state). -/
def apply_overshoot (direction : ℚ) (ui : UIState) (s : Scene) : Scene :=
  let current_frame := s.currentTime
  let intensity := queryIntensity ui
  let selected_objects := s.selection
  let objects_data :=
    buildObjectsData ui direction intensity current_frame s selected_objects
  let s1 := selectS s selected_objects
  let s2 := objects_data.foldl (writeObjEntry ui current_frame) s1
  selectS s2 selected_objects

/-- Function `overshoot_positive`: the Positive Direction button handler. -/
def overshoot_positive (ui : UIState) (s : Scene) : Scene :=
  apply_overshoot 1 ui s

/-- Function `overshoot_negative`: the Negative Direction button handler. -/
def overshoot_negative (ui : UIState) (s : Scene) : Scene :=
  apply_overshoot (-1) ui s

/-- Function `toggle_all_checkboxes`: set every one of the six channel checkboxes
to the value of the "Check All" checkbox. -/
def toggle_all_checkboxes (ui : UIState) : UIState :=
  let all_value := ui.checkAllBox
  { ui with txBox := all_value, tyBox := all_value, tzBox := all_value,
            rxBox := all_value, ryBox := all_value, rzBox := all_value }

/-- The ephemeral overshoot request of the spec's data model, built from
widget state when a direction button is pressed. -/
structure OvershootRequest where
  intensity : ℚ
  direction : ℚ
  enabledChannels : List String
  colorFlag : Bool
deriving Repr

/-- Build the request from the widget state for a given direction. -/
def buildRequest (ui : UIState) (direction : ℚ) : OvershootRequest :=
  { intensity := queryIntensity ui
    direction := direction
    enabledChannels := sixChannels.filter (fun a => channelChecked ui a)
    colorFlag := ui.colorBox }

/-- The overshoot value computed by `apply_overshoot` (lines 70-71) from
the previous value, next value, current value, direction and intensity:
`calculate_overshoot(current, (next - prev) * direction, intensity)`. -/
def overshootFromNeighbors (c p n d i : ℚ) : ℚ :=
  calculate_overshoot c ((n - p) * d) i

/-- Observation: the animation curve of the object named `nm` for
attribute `attr` in a scene. -/
def sceneCurve (s : Scene) (nm attr : String) : List Keyframe :=
  match findObject s nm with
  | some o => curveOf o attr
  | none => []

/-- Observation: the stored static value of the object named `nm` for
attribute `attr` in a scene. -/
def sceneStatic (s : Scene) (nm attr : String) : Option ℚ :=
  match findObject s nm with
  | some o => alookup o.staticVals attr
  | none => none

/-- The value of the keyframe at exactly time `t`, if one exists. -/
def keyAt : List Keyframe → ℚ → Option ℚ
  | [], _ => none
  | k :: rest, t => if k.time = t then some k.value else keyAt rest t

/-- Observation: whether the object named `nm` has a keyframe on `attr`
at exactly time `t`. -/
def sceneHasKeyAt (s : Scene) (nm attr : String) (t : ℚ) : Bool :=
  (keyAt (sceneCurve s nm attr) t).isSome

/-- A concrete object whose translateX curve has keys (0, 5) and (10, 5):
the neighbor keyframe values around time 5 are equal while the keyframe
times differ. -/
def exObject : SceneObject :=
  { name := "pCube1"
    keyableAttrs := sixChannels
    curves := [("translateX", [⟨0, 5⟩, ⟨10, 5⟩])]
    staticVals := [("translateX", 5)] }

/-- A concrete scene containing only `exObject`, selected, at time 5. -/
def exScene : Scene :=
  { objects := [exObject]
    selection := ["pCube1"]
    currentTime := 5
    coloredKeys := [] }

/-- A concrete window state: every channel checkbox on, color off, raw
intensity 2. -/
def exUI : UIState :=
  { intensityRaw := 2
    checkAllBox := true
    txBox := true, tyBox := true, tzBox := true
    rxBox := true, ryBox := true, rzBox := true
    colorBox := false }

/-- A concrete object whose translateX curve has keys (0, 0) and
(10, 10). -/
def exObject2 : SceneObject :=
  { name := "pSphere1"
    keyableAttrs := sixChannels
    curves := [("translateX", [⟨0, 0⟩, ⟨10, 10⟩])]
    staticVals := [] }

/-- A concrete scene containing only `exObject2`, selected, at time 5. -/
def exScene2 : Scene :=
  { objects := [exObject2]
    selection := ["pSphere1"]
    currentTime := 5
    coloredKeys := [] }

/-- Window state with the translateY checkbox off (used to observe that
unchecked channels are skipped). -/
def exUI2 : UIState :=
  { exUI with tyBox := false }

/-! ### Association list lemmas -/

theorem alookup_aupdate_self {α : Type} (l : List (String × α)) (k : String)
    (v : α) : alookup (aupdate l k v) k = some v := by
  induction l with
  | nil => simp [aupdate, alookup]
  | cons p rest ih =>
      obtain ⟨k', v'⟩ := p
      by_cases h : k' = k
      · simp [aupdate, h, alookup]
      · simp [aupdate, h, alookup, ih]

theorem alookup_aupdate_ne {α : Type} (l : List (String × α)) (k k' : String)
    (v : α) (h : k' ≠ k) : alookup (aupdate l k v) k' = alookup l k' := by
  have hne : ¬(k = k') := fun hc => h hc.symm
  induction l with
  | nil => simp [aupdate, alookup, hne]
  | cons p rest ih =>
      obtain ⟨ka, va⟩ := p
      by_cases hk : ka = k
      · subst hk
        simp [aupdate, alookup, hne]
      · by_cases hk' : ka = k'
        · simp [aupdate, alookup, hk, hk', hne, h]
        · simp [aupdate, alookup, hk, hk', ih]

theorem mem_aupdate {α : Type} (l : List (String × α)) (k : String) (v : α)
    (e : String × α) (he : e ∈ aupdate l k v) : e ∈ l ∨ e = (k, v) := by
  induction l with
  | nil =>
      simp only [aupdate, List.mem_singleton] at he
      exact Or.inr he
  | cons p rest ih =>
      obtain ⟨ka, va⟩ := p
      by_cases hk : ka = k
      · rw [aupdate, if_pos hk] at he
        rcases List.mem_cons.mp he with h1 | h1
        · exact Or.inr h1
        · exact Or.inl (List.mem_cons_of_mem _ h1)
      · rw [aupdate, if_neg hk] at he
        rcases List.mem_cons.mp he with h1 | h1
        · exact Or.inl (h1 ▸ List.mem_cons_self _ _)
        · rcases ih h1 with h2 | h2
          · exact Or.inl (List.mem_cons_of_mem _ h2)
          · exact Or.inr h2

theorem alookup_mem {α : Type} (l : List (String × α)) (k : String) (v : α)
    (h : alookup l k = some v) : (k, v) ∈ l := by
  induction l with
  | nil => cases h
  | cons p rest ih =>
      obtain ⟨ka, va⟩ := p
      by_cases hk : ka = k
      · subst hk
        rw [alookup, if_pos rfl] at h
        cases h
        exact List.mem_cons_self _ _
      · rw [alookup, if_neg hk] at h
        exact List.mem_cons_of_mem _ (ih h)

theorem fst_mem_aupdate {α : Type} (l : List (String × α)) (k : String)
    (v : α) (x : String) :
    x ∈ (aupdate l k v).map Prod.fst ↔ x ∈ l.map Prod.fst ∨ x = k := by
  induction l with
  | nil => simp [aupdate]
  | cons p rest ih =>
      obtain ⟨ka, va⟩ := p
      by_cases hk : ka = k
      · subst hk
        simp only [aupdate, eq_self_iff_true, if_true, List.map_cons,
          List.mem_cons]
        tauto
      · simp only [aupdate, if_neg hk, List.map_cons, List.mem_cons, ih]
        tauto

theorem nodup_fst_aupdate {α : Type} (l : List (String × α)) (k : String)
    (v : α) (h : (l.map Prod.fst).Nodup) :
    ((aupdate l k v).map Prod.fst).Nodup := by
  induction l with
  | nil => simp [aupdate]
  | cons p rest ih =>
      obtain ⟨ka, va⟩ := p
      simp only [List.map_cons, List.nodup_cons] at h
      by_cases hk : ka = k
      · subst hk
        simp only [aupdate, eq_self_iff_true, if_true, List.map_cons,
          List.nodup_cons]
        exact h
      · simp only [aupdate, if_neg hk, List.map_cons, List.nodup_cons]
        refine ⟨?_, ih h.2⟩
        intro hc
        rcases (fst_mem_aupdate rest k v ka).mp hc with h2 | h2
        · exact h.1 h2
        · exact hk h2

/-! ### Object lookup lemmas -/

theorem findObjectIn_name (l : List SceneObject) (nm : String)
    (o : SceneObject) (h : findObjectIn l nm = some o) : o.name = nm := by
  induction l with
  | nil => cases h
  | cons a rest ih =>
      by_cases ha : a.name = nm
      · simp only [findObjectIn, if_pos ha] at h
        cases h
        exact ha
      · simp only [findObjectIn, if_neg ha] at h
        exact ih h

theorem findObjectIn_map_update (l : List SceneObject) (nm' nm : String)
    (f : SceneObject → SceneObject) (hf : ∀ o, (f o).name = o.name) :
    findObjectIn (l.map (fun o => if o.name = nm' then f o else o)) nm =
      (findObjectIn l nm).map (fun o => if o.name = nm' then f o else o) := by
  induction l with
  | nil => rfl
  | cons a rest ih =>
      have hname : (if a.name = nm' then f a else a).name = a.name := by
        by_cases h : a.name = nm'
        · simp [h, hf a]
        · simp [h]
      by_cases hm : a.name = nm
      · simp only [List.map_cons, findObjectIn, hname, if_pos hm]
        rfl
      · simp only [List.map_cons, findObjectIn, hname, if_neg hm, ih]

/-! ### Scene observation lemmas for the host write primitives -/

theorem findObject_setAttrS (s : Scene) (nm' a' : String) (v : ℚ)
    (nm : String) :
    findObject (setAttrS s nm' a' v) nm =
      (findObject s nm).map
        (fun o => if o.name = nm'
          then { o with staticVals := aupdate o.staticVals a' v } else o) := by
  unfold setAttrS updateObject findObject
  exact findObjectIn_map_update s.objects nm' nm _ (fun o => rfl)

theorem findObject_setKeyframeS (s : Scene) (nm' a' : String) (t v : ℚ)
    (nm : String) :
    findObject (setKeyframeS s nm' a' t v) nm =
      (findObject s nm).map
        (fun o => if o.name = nm'
          then { o with
                  curves := aupdate o.curves a' (insertKey (curveOf o a') t v) }
          else o) := by
  unfold setKeyframeS updateObject findObject
  exact findObjectIn_map_update s.objects nm' nm _ (fun o => rfl)

theorem sceneCurve_setAttrS (s : Scene) (nm' a' : String) (v : ℚ)
    (nm a : String) :
    sceneCurve (setAttrS s nm' a' v) nm a = sceneCurve s nm a := by
  unfold sceneCurve
  rw [findObject_setAttrS]
  cases hf : findObject s nm with
  | none => rfl
  | some o =>
      by_cases hn : o.name = nm'
      · simp [hn, curveOf]
      · simp [hn]

theorem sceneStatic_setAttrS_ne (s : Scene) (nm' a' : String) (v : ℚ)
    (nm a : String) (h : ¬(nm' = nm ∧ a' = a)) :
    sceneStatic (setAttrS s nm' a' v) nm a = sceneStatic s nm a := by
  unfold sceneStatic
  rw [findObject_setAttrS]
  cases hf : findObject s nm with
  | none => rfl
  | some o =>
      have hname : o.name = nm := findObjectIn_name _ _ _ hf
      by_cases hn : o.name = nm'
      · have hnm : nm' = nm := by rw [← hn, hname]
        have ha : a' ≠ a := fun hc => h ⟨hnm, hc⟩
        simp only [Option.map_some', if_pos hn]
        exact alookup_aupdate_ne _ _ _ _ (Ne.symm ha)
      · simp [hn]

theorem sceneStatic_setAttrS_self (s : Scene) (nm a : String) (v : ℚ)
    (hf : (findObject s nm).isSome) :
    sceneStatic (setAttrS s nm a v) nm a = some v := by
  unfold sceneStatic
  rw [findObject_setAttrS]
  cases hfo : findObject s nm with
  | none => rw [hfo] at hf; cases hf
  | some o =>
      have hname : o.name = nm := findObjectIn_name _ _ _ hfo
      simp only [Option.map_some', if_pos hname]
      exact alookup_aupdate_self _ _ _

theorem sceneStatic_setKeyframeS (s : Scene) (nm' a' : String) (t v : ℚ)
    (nm a : String) :
    sceneStatic (setKeyframeS s nm' a' t v) nm a = sceneStatic s nm a := by
  unfold sceneStatic
  rw [findObject_setKeyframeS]
  cases hf : findObject s nm with
  | none => rfl
  | some o =>
      by_cases hn : o.name = nm'
      · simp [hn]
      · simp [hn]

theorem sceneCurve_setKeyframeS_ne (s : Scene) (nm' a' : String) (t v : ℚ)
    (nm a : String) (h : ¬(nm' = nm ∧ a' = a)) :
    sceneCurve (setKeyframeS s nm' a' t v) nm a = sceneCurve s nm a := by
  unfold sceneCurve
  rw [findObject_setKeyframeS]
  cases hf : findObject s nm with
  | none => rfl
  | some o =>
      have hname : o.name = nm := findObjectIn_name _ _ _ hf
      by_cases hn : o.name = nm'
      · have hnm : nm' = nm := by rw [← hn, hname]
        have ha : a' ≠ a := fun hc => h ⟨hnm, hc⟩
        simp only [Option.map_some', if_pos hn, curveOf]
        rw [alookup_aupdate_ne _ _ _ _ (Ne.symm ha)]
      · simp [hn]

theorem sceneCurve_setKeyframeS_self (s : Scene) (nm a : String) (t v : ℚ)
    (hf : (findObject s nm).isSome) :
    sceneCurve (setKeyframeS s nm a t v) nm a =
      insertKey (sceneCurve s nm a) t v := by
  unfold sceneCurve
  rw [findObject_setKeyframeS]
  cases hfo : findObject s nm with
  | none => rw [hfo] at hf; cases hf
  | some o =>
      have hname : o.name = nm := findObjectIn_name _ _ _ hfo
      simp only [Option.map_some', if_pos hname, curveOf]
      rw [alookup_aupdate_self]
      simp

theorem findObject_isSome_setAttrS (s : Scene) (nm' a' : String) (v : ℚ)
    (nm : String) :
    (findObject (setAttrS s nm' a' v) nm).isSome = (findObject s nm).isSome := by
  rw [findObject_setAttrS]
  cases findObject s nm <;> rfl

theorem findObject_isSome_setKeyframeS (s : Scene) (nm' a' : String)
    (t v : ℚ) (nm : String) :
    (findObject (setKeyframeS s nm' a' t v) nm).isSome =
      (findObject s nm).isSome := by
  rw [findObject_setKeyframeS]
  cases findObject s nm <;> rfl

theorem keyAt_insertKey_self (ks : List Keyframe) (t v : ℚ) :
    keyAt (insertKey ks t v) t = some v := by
  induction ks with
  | nil => simp [insertKey, keyAt]
  | cons k rest ih =>
      by_cases h : k.time = t
      · simp [insertKey, h, ih]
      · simp [insertKey, h, keyAt, ih]

/-! ### The write loop -/

theorem sceneCurve_selectS (s : Scene) (l : List String) (nm a : String) :
    sceneCurve (selectS s l) nm a = sceneCurve s nm a := rfl

theorem sceneStatic_selectS (s : Scene) (l : List String) (nm a : String) :
    sceneStatic (selectS s l) nm a = sceneStatic s nm a := rfl

theorem sceneCurve_withColored (s : Scene) (ck : List (String × ℚ))
    (nm a : String) :
    sceneCurve { s with coloredKeys := ck } nm a = sceneCurve s nm a := rfl

theorem sceneStatic_withColored (s : Scene) (ck : List (String × ℚ))
    (nm a : String) :
    sceneStatic { s with coloredKeys := ck } nm a = sceneStatic s nm a := rfl

theorem writeAttrPair_frame (t : ℚ) (nm' : String) (s : Scene)
    (p : String × ℚ) (nm a : String) (h : ¬(nm' = nm ∧ p.1 = a)) :
    sceneCurve (writeAttrPair t nm' s p) nm a = sceneCurve s nm a ∧
    sceneStatic (writeAttrPair t nm' s p) nm a = sceneStatic s nm a := by
  unfold writeAttrPair
  constructor
  · rw [sceneCurve_setKeyframeS_ne _ _ _ _ _ _ _ h, sceneCurve_setAttrS]
  · rw [sceneStatic_setKeyframeS, sceneStatic_setAttrS_ne _ _ _ _ _ _ h]

theorem writePairs_frame (t : ℚ) (nm' : String) (pairs : List (String × ℚ))
    (s : Scene) (nm a : String)
    (h : ∀ p ∈ pairs, ¬(nm' = nm ∧ p.1 = a)) :
    sceneCurve (pairs.foldl (writeAttrPair t nm') s) nm a = sceneCurve s nm a ∧
    sceneStatic (pairs.foldl (writeAttrPair t nm') s) nm a =
      sceneStatic s nm a := by
  induction pairs generalizing s with
  | nil => exact ⟨rfl, rfl⟩
  | cons p ps ih =>
      have hp := h p (List.mem_cons_self _ _)
      have hrest : ∀ q ∈ ps, ¬(nm' = nm ∧ q.1 = a) :=
        fun q hq => h q (List.mem_cons_of_mem _ hq)
      rw [List.foldl_cons]
      obtain ⟨hc, hs⟩ := ih (writeAttrPair t nm' s p) hrest
      obtain ⟨hc0, hs0⟩ := writeAttrPair_frame t nm' s p nm a hp
      exact ⟨hc.trans hc0, hs.trans hs0⟩

theorem findObject_isSome_writeAttrPair (t : ℚ) (nm' : String) (s : Scene)
    (p : String × ℚ) (nm : String) :
    (findObject (writeAttrPair t nm' s p) nm).isSome =
      (findObject s nm).isSome := by
  unfold writeAttrPair
  rw [findObject_isSome_setKeyframeS, findObject_isSome_setAttrS]

theorem findObject_isSome_writePairs (t : ℚ) (nm' : String)
    (pairs : List (String × ℚ)) (s : Scene) (nm : String) :
    (findObject (pairs.foldl (writeAttrPair t nm') s) nm).isSome =
      (findObject s nm).isSome := by
  induction pairs generalizing s with
  | nil => rfl
  | cons p ps ih =>
      rw [List.foldl_cons, ih, findObject_isSome_writeAttrPair]

theorem findObject_isSome_writeObjEntry (ui : UIState) (t : ℚ) (s : Scene)
    (e : String × List (String × ℚ)) (nm : String) :
    (findObject (writeObjEntry ui t s e) nm).isSome =
      (findObject s nm).isSome := by
  unfold writeObjEntry
  have hbase : (findObject (e.2.foldl (writeAttrPair t e.1) (selectS s [e.1]))
      nm).isSome = (findObject s nm).isSome := by
    rw [findObject_isSome_writePairs]
    rfl
  by_cases hcol : ui.colorBox
  · simp only [hcol, if_true]
    exact hbase
  · simp only [hcol, if_false]
    exact hbase

theorem writeObjEntry_frame (ui : UIState) (t : ℚ) (s : Scene)
    (e : String × List (String × ℚ)) (nm a : String)
    (h : ∀ p ∈ e.2, ¬(e.1 = nm ∧ p.1 = a)) :
    sceneCurve (writeObjEntry ui t s e) nm a = sceneCurve s nm a ∧
    sceneStatic (writeObjEntry ui t s e) nm a = sceneStatic s nm a := by
  unfold writeObjEntry
  obtain ⟨hc, hs⟩ := writePairs_frame t e.1 e.2 (selectS s [e.1]) nm a h
  by_cases hcol : ui.colorBox
  · simp only [hcol, if_true]
    exact ⟨(sceneCurve_withColored _ _ _ _).trans hc,
           (sceneStatic_withColored _ _ _ _).trans hs⟩
  · simp only [hcol, if_false]
    exact ⟨hc, hs⟩

theorem writeEntries_frame (ui : UIState) (t : ℚ)
    (entries : List (String × List (String × ℚ))) (s : Scene)
    (nm a : String)
    (h : ∀ e ∈ entries, ∀ p ∈ e.2, ¬(e.1 = nm ∧ p.1 = a)) :
    sceneCurve (entries.foldl (writeObjEntry ui t) s) nm a =
      sceneCurve s nm a ∧
    sceneStatic (entries.foldl (writeObjEntry ui t) s) nm a =
      sceneStatic s nm a := by
  induction entries generalizing s with
  | nil => exact ⟨rfl, rfl⟩
  | cons e es ih =>
      have he := h e (List.mem_cons_self _ _)
      have hrest : ∀ e2 ∈ es, ∀ p ∈ e2.2, ¬(e2.1 = nm ∧ p.1 = a) :=
        fun e2 he2 => h e2 (List.mem_cons_of_mem _ he2)
      rw [List.foldl_cons]
      obtain ⟨hc, hs⟩ := ih (writeObjEntry ui t s e) hrest
      obtain ⟨hc0, hs0⟩ := writeObjEntry_frame ui t s e nm a he
      exact ⟨hc.trans hc0, hs.trans hs0⟩

theorem writeAttrPair_sets (t : ℚ) (nm : String) (s : Scene) (a : String)
    (v : ℚ) (hobj : (findObject s nm).isSome) :
    sceneStatic (writeAttrPair t nm s (a, v)) nm a = some v ∧
    keyAt (sceneCurve (writeAttrPair t nm s (a, v)) nm a) t = some v := by
  unfold writeAttrPair
  constructor
  · rw [sceneStatic_setKeyframeS, sceneStatic_setAttrS_self _ _ _ _ hobj]
  · rw [sceneCurve_setKeyframeS_self]
    · exact keyAt_insertKey_self _ _ _
    · rw [findObject_isSome_setAttrS]
      exact hobj

theorem writePairs_sets (t : ℚ) (nm : String) (pairs : List (String × ℚ))
    (s : Scene) (a : String) (v : ℚ)
    (hmem : (a, v) ∈ pairs) (hnd : (pairs.map Prod.fst).Nodup)
    (hobj : (findObject s nm).isSome) :
    sceneStatic (pairs.foldl (writeAttrPair t nm) s) nm a = some v ∧
    keyAt (sceneCurve (pairs.foldl (writeAttrPair t nm) s) nm a) t =
      some v := by
  induction pairs generalizing s with
  | nil => cases hmem
  | cons p ps ih =>
      simp only [List.map_cons, List.nodup_cons] at hnd
      rcases List.mem_cons.mp hmem with heq | hmem2
      · have hpa : p = (a, v) := heq.symm
        subst hpa
        have hnotin : ∀ q ∈ ps, ¬(nm = nm ∧ q.1 = a) := by
          intro q hq hc
          have hq1 : q.1 ∈ ps.map Prod.fst := List.mem_map_of_mem Prod.fst hq
          rw [hc.2] at hq1
          exact hnd.1 hq1
        rw [List.foldl_cons]
        obtain ⟨hc, hs⟩ :=
          writePairs_frame t nm ps (writeAttrPair t nm s (a, v)) nm a hnotin
        obtain ⟨hst, hky⟩ := writeAttrPair_sets t nm s a v hobj
        exact ⟨hs.trans hst, hc ▸ hky⟩
      · rw [List.foldl_cons]
        have hobj2 : (findObject (writeAttrPair t nm s p) nm).isSome := by
          rw [findObject_isSome_writeAttrPair]
          exact hobj
        exact ih _ hmem2 hnd.2 hobj2

theorem writeObjEntry_sets (ui : UIState) (t : ℚ) (s : Scene)
    (nm : String) (data : List (String × ℚ)) (a : String) (v : ℚ)
    (hmem : (a, v) ∈ data) (hnd : (data.map Prod.fst).Nodup)
    (hobj : (findObject s nm).isSome) :
    sceneStatic (writeObjEntry ui t s (nm, data)) nm a = some v ∧
    keyAt (sceneCurve (writeObjEntry ui t s (nm, data)) nm a) t = some v := by
  unfold writeObjEntry
  have hobj2 : (findObject (selectS s [nm]) nm).isSome := hobj
  obtain ⟨hst, hky⟩ := writePairs_sets t nm data (selectS s [nm]) a v hmem hnd hobj2
  by_cases hcol : ui.colorBox
  · simp only [hcol, if_true]
    exact ⟨(sceneStatic_withColored _ _ _ _).trans hst,
           (sceneCurve_withColored _ _ _ _) ▸ hky⟩
  · simp only [hcol, if_false]
    exact ⟨hst, hky⟩

theorem writeEntries_sets (ui : UIState) (t : ℚ)
    (entries : List (String × List (String × ℚ))) (s : Scene)
    (nm a : String) (v : ℚ) (data : List (String × ℚ))
    (hnd : (entries.map Prod.fst).Nodup)
    (hentry : (nm, data) ∈ entries)
    (hmem : (a, v) ∈ data)
    (hdnd : (data.map Prod.fst).Nodup)
    (hobj : (findObject s nm).isSome) :
    sceneStatic (entries.foldl (writeObjEntry ui t) s) nm a = some v ∧
    keyAt (sceneCurve (entries.foldl (writeObjEntry ui t) s) nm a) t =
      some v := by
  induction entries generalizing s with
  | nil => cases hentry
  | cons e es ih =>
      simp only [List.map_cons, List.nodup_cons] at hnd
      rcases List.mem_cons.mp hentry with heq | hmem2
      · have he : e = (nm, data) := heq.symm
        subst he
        have hnotin : ∀ e2 ∈ es, ∀ p ∈ e2.2, ¬(e2.1 = nm ∧ p.1 = a) := by
          intro e2 he2 p hp hc
          have he1 : e2.1 ∈ es.map Prod.fst := List.mem_map_of_mem Prod.fst he2
          rw [hc.1] at he1
          exact hnd.1 he1
        rw [List.foldl_cons]
        obtain ⟨hc, hs⟩ :=
          writeEntries_frame ui t es (writeObjEntry ui t s (nm, data)) nm a
            hnotin
        obtain ⟨hst, hky⟩ := writeObjEntry_sets ui t s nm data a v hmem hdnd hobj
        exact ⟨hs.trans hst, hc ▸ hky⟩
      · rw [List.foldl_cons]
        have hobj2 : (findObject (writeObjEntry ui t s e) nm).isSome := by
          rw [findObject_isSome_writeObjEntry]
          exact hobj
        exact ih _ hnd.2 hmem2 hobj2

/-! ### Lemmas about the per-attribute computation and objects_data -/

theorem isEmpty_false_of_mem {α : Type} (l : List α) (x : α) (h : x ∈ l) :
    l.isEmpty = false := by
  cases l with
  | nil => cases h
  | cons a rest => rfl

theorem processAttr_some_spec (ui : UIState) (d i t : ℚ) (o : SceneObject)
    (attr : String) (pk nk : ℚ)
    (hsix : attr ∈ sixChannels) (hchk : channelChecked ui attr = true)
    (hp : findPrevKey (curveOf o attr) t = some pk)
    (hn : findNextKey (curveOf o attr) t = some nk)
    (hne : pk ≠ nk) :
    processAttr ui d i t o attr =
      some (calculate_overshoot (getAttrVal o attr t)
        ((getAttrVal o attr nk - getAttrVal o attr pk) * d) i) := by
  unfold processAttr
  rw [if_pos hsix, if_pos hchk, hp, hn]
  simp [hne]

theorem processAttr_none_of_missing (ui : UIState) (d i t : ℚ)
    (o : SceneObject) (attr : String)
    (hmiss : findPrevKey (curveOf o attr) t = none ∨
             findNextKey (curveOf o attr) t = none) :
    processAttr ui d i t o attr = none := by
  unfold processAttr
  by_cases h6 : attr ∈ sixChannels
  · by_cases hc : channelChecked ui attr = true
    · rw [if_pos h6, if_pos hc]
      rcases hmiss with h | h
      · rw [h]
      · rw [h]
        cases findPrevKey (curveOf o attr) t <;> rfl
    · rw [if_pos h6, if_neg hc]
  · rw [if_neg h6]

theorem processAttr_none_of_not_six (ui : UIState) (d i t : ℚ)
    (o : SceneObject) (attr : String) (h : attr ∉ sixChannels) :
    processAttr ui d i t o attr = none := by
  unfold processAttr
  rw [if_neg h]

theorem processAttr_none_of_unchecked (ui : UIState) (d i t : ℚ)
    (o : SceneObject) (attr : String) (h : channelChecked ui attr = false) :
    processAttr ui d i t o attr = none := by
  unfold processAttr
  by_cases h6 : attr ∈ sixChannels
  · rw [if_pos h6, if_neg (by rw [h]; exact Bool.false_ne_true)]
  · rw [if_neg h6]

theorem mem_objData (ui : UIState) (d i t : ℚ) (o : SceneObject)
    (p : String × ℚ) (hp : p ∈ objData ui d i t o) :
    p.1 ∈ o.keyableAttrs ∧ processAttr ui d i t o p.1 = some p.2 := by
  unfold objData at hp
  rw [List.mem_filterMap] at hp
  obtain ⟨a, ha, hmap⟩ := hp
  cases hv : processAttr ui d i t o a with
  | none => rw [hv] at hmap; cases hmap
  | some v =>
      rw [hv] at hmap
      simp only [Option.map_some'] at hmap
      cases hmap
      exact ⟨ha, hv⟩

theorem objData_mem_intro (ui : UIState) (d i t : ℚ) (o : SceneObject)
    (attr : String) (v : ℚ) (hk : attr ∈ o.keyableAttrs)
    (hv : processAttr ui d i t o attr = some v) :
    (attr, v) ∈ objData ui d i t o := by
  unfold objData
  rw [List.mem_filterMap]
  exact ⟨attr, hk, by rw [hv]; rfl⟩

theorem filterMapPairs_keys_sublist (f : String → Option ℚ)
    (l : List String) :
    ((l.filterMap (fun a => (f a).map (fun v => (a, v)))).map Prod.fst).Sublist
      l := by
  induction l with
  | nil => simp
  | cons a rest ih =>
      cases hf : f a with
      | none =>
          rw [List.filterMap_cons]
          rw [hf]
          exact ih.trans (List.sublist_cons_self a rest)
      | some v =>
          rw [List.filterMap_cons]
          rw [hf]
          simp only [Option.map_some', List.map_cons]
          exact ih.cons₂ a

theorem objData_keys_nodup (ui : UIState) (d i t : ℚ) (o : SceneObject)
    (h : o.keyableAttrs.Nodup) : ((objData ui d i t o).map Prod.fst).Nodup := by
  unfold objData
  exact (filterMapPairs_keys_sublist (processAttr ui d i t o) o.keyableAttrs).nodup h

theorem buildObjectsData_mem (ui : UIState) (d i t : ℚ) (s : Scene)
    (sel : List String) (e : String × List (String × ℚ))
    (he : e ∈ buildObjectsData ui d i t s sel) :
    ∃ o, findObject s e.1 = some o ∧ e.2 = objData ui d i t o := by
  have haux : ∀ (sel2 : List String)
      (acc : List (String × List (String × ℚ))),
      (∀ e2 ∈ acc, ∃ o, findObject s e2.1 = some o ∧
        e2.2 = objData ui d i t o) →
      ∀ e2 ∈ sel2.foldl (objectsDataStep ui d i t s) acc,
        ∃ o, findObject s e2.1 = some o ∧ e2.2 = objData ui d i t o := by
    intro sel2
    induction sel2 with
    | nil => intro acc hacc e2 he2; exact hacc e2 he2
    | cons nm rest ih =>
        intro acc hacc
        rw [List.foldl_cons]
        apply ih
        intro e2 he2
        rw [objectsDataStep] at he2
        cases hf : findObject s nm with
        | none => rw [hf] at he2; exact hacc e2 he2
        | some o =>
            rw [hf] at he2
            simp only at he2
            by_cases hke : o.keyableAttrs.isEmpty = true
            · rw [if_pos hke] at he2; exact hacc e2 he2
            · rw [if_neg hke] at he2
              by_cases hod : (objData ui d i t o).isEmpty = true
              · rw [if_pos hod] at he2; exact hacc e2 he2
              · rw [if_neg hod] at he2
                rcases mem_aupdate acc nm (objData ui d i t o) e2 he2 with
                  h1 | h1
                · exact hacc e2 h1
                · subst h1; exact ⟨o, hf, rfl⟩
  exact haux sel [] (fun e2 he2 => absurd he2 (List.not_mem_nil e2)) e he

theorem buildObjectsData_keys_nodup (ui : UIState) (d i t : ℚ) (s : Scene)
    (sel : List String) :
    ((buildObjectsData ui d i t s sel).map Prod.fst).Nodup := by
  have haux : ∀ (sel2 : List String)
      (acc : List (String × List (String × ℚ))),
      (acc.map Prod.fst).Nodup →
      ((sel2.foldl (objectsDataStep ui d i t s) acc).map Prod.fst).Nodup := by
    intro sel2
    induction sel2 with
    | nil => intro acc h; exact h
    | cons nm rest ih =>
        intro acc hacc
        rw [List.foldl_cons]
        apply ih
        rw [objectsDataStep]
        cases hf : findObject s nm with
        | none => exact hacc
        | some o =>
            simp only
            by_cases hke : o.keyableAttrs.isEmpty = true
            · rw [if_pos hke]; exact hacc
            · rw [if_neg hke]
              by_cases hod : (objData ui d i t o).isEmpty = true
              · rw [if_pos hod]; exact hacc
              · rw [if_neg hod]
                exact nodup_fst_aupdate _ _ _ hacc
  exact haux sel [] List.nodup_nil

theorem buildObjectsData_lookup (ui : UIState) (d i t : ℚ) (s : Scene)
    (sel : List String) (nm : String) (o : SceneObject)
    (hfind : findObject s nm = some o)
    (hkne : o.keyableAttrs.isEmpty = false)
    (hodne : (objData ui d i t o).isEmpty = false) :
    ∀ acc, (nm ∈ sel ∨ alookup acc nm = some (objData ui d i t o)) →
      alookup (sel.foldl (objectsDataStep ui d i t s) acc) nm =
        some (objData ui d i t o) := by
  induction sel with
  | nil =>
      intro acc h
      rcases h with h | h
      · cases h
      · exact h
  | cons hd rest ih =>
      intro acc hsel
      rw [List.foldl_cons]
      apply ih
      rcases hsel with hmem | hlk
      · rcases List.mem_cons.mp hmem with heq | hmem2
        · subst heq
          right
          rw [objectsDataStep, hfind]
          simp only
          rw [if_neg (by rw [hkne]; exact Bool.false_ne_true),
              if_neg (by rw [hodne]; exact Bool.false_ne_true)]
          exact alookup_aupdate_self _ _ _
        · left; exact hmem2
      · right
        rw [objectsDataStep]
        cases hf : findObject s hd with
        | none => exact hlk
        | some o2 =>
            simp only
            by_cases hke2 : o2.keyableAttrs.isEmpty = true
            · rw [if_pos hke2]; exact hlk
            · rw [if_neg hke2]
              by_cases hod2 : (objData ui d i t o2).isEmpty = true
              · rw [if_pos hod2]; exact hlk
              · rw [if_neg hod2]
                by_cases hdnm : hd = nm
                · subst hdnm
                  rw [hf] at hfind
                  cases hfind
                  rw [alookup_aupdate_self]
                · rw [alookup_aupdate_ne _ _ _ _ (fun hc => hdnm hc.symm)]
                  exact hlk

theorem buildObjectsData_entry (ui : UIState) (d i t : ℚ) (s : Scene)
    (sel : List String) (nm : String) (o : SceneObject)
    (hsel : nm ∈ sel) (hfind : findObject s nm = some o)
    (hkne : o.keyableAttrs.isEmpty = false)
    (hodne : (objData ui d i t o).isEmpty = false) :
    (nm, objData ui d i t o) ∈ buildObjectsData ui d i t s sel :=
  alookup_mem _ _ _
    (buildObjectsData_lookup ui d i t s sel nm o hfind hkne hodne []
      (Or.inl hsel))

/-! ### apply_overshoot: top-level structure -/

theorem apply_overshoot_eq (d : ℚ) (ui : UIState) (s : Scene) :
    apply_overshoot d ui s =
      selectS
        ((buildObjectsData ui d (queryIntensity ui) s.currentTime s
            s.selection).foldl (writeObjEntry ui s.currentTime)
          (selectS s s.selection))
        s.selection := rfl

/-- A channel that either is not a keyable attribute of the object or is
rejected by `processAttr` is never written: its curve and its static
value are unchanged by `apply_overshoot`. -/
theorem apply_overshoot_frame (d : ℚ) (ui : UIState) (s : Scene)
    (nm attr : String) (o : SceneObject)
    (hfind : findObject s nm = some o)
    (hnone : attr ∉ o.keyableAttrs ∨
      processAttr ui d (queryIntensity ui) s.currentTime o attr = none) :
    sceneCurve (apply_overshoot d ui s) nm attr = sceneCurve s nm attr ∧
    sceneStatic (apply_overshoot d ui s) nm attr = sceneStatic s nm attr := by
  rw [apply_overshoot_eq]
  have hframe : ∀ e ∈ buildObjectsData ui d (queryIntensity ui)
      s.currentTime s s.selection, ∀ p ∈ e.2, ¬(e.1 = nm ∧ p.1 = attr) := by
    intro e he p hp hc
    obtain ⟨o2, hfo2, hdata⟩ := buildObjectsData_mem _ _ _ _ _ _ _ he
    rw [hc.1] at hfo2
    rw [hfind] at hfo2
    cases hfo2
    obtain ⟨hk2, hv2⟩ := mem_objData _ _ _ _ _ _ (hdata ▸ hp)
    rw [hc.2] at hk2 hv2
    rcases hnone with h1 | h1
    · exact h1 hk2
    · rw [h1] at hv2
      exact Option.noConfusion hv2
  obtain ⟨hc2, hs2⟩ := writeEntries_frame ui s.currentTime _
    (selectS s s.selection) nm attr hframe
  exact ⟨hc2, hs2⟩

/-- A channel that passes every processing condition is written: the
static value becomes the computed overshoot value and a keyframe with
that value sits at the current time. -/
theorem apply_overshoot_writes (d : ℚ) (ui : UIState) (s : Scene)
    (nm attr : String) (o : SceneObject) (pk nk : ℚ)
    (hfind : findObject s nm = some o)
    (hsel : nm ∈ s.selection)
    (hknd : o.keyableAttrs.Nodup)
    (hkey : attr ∈ o.keyableAttrs)
    (hsix : attr ∈ sixChannels)
    (hchk : channelChecked ui attr = true)
    (hp : findPrevKey (curveOf o attr) s.currentTime = some pk)
    (hn : findNextKey (curveOf o attr) s.currentTime = some nk)
    (hne : pk ≠ nk) :
    sceneStatic (apply_overshoot d ui s) nm attr =
      some (calculate_overshoot (getAttrVal o attr s.currentTime)
        ((getAttrVal o attr nk - getAttrVal o attr pk) * d)
        (queryIntensity ui)) ∧
    keyAt (sceneCurve (apply_overshoot d ui s) nm attr) s.currentTime =
      some (calculate_overshoot (getAttrVal o attr s.currentTime)
        ((getAttrVal o attr nk - getAttrVal o attr pk) * d)
        (queryIntensity ui)) := by
  have hproc := processAttr_some_spec ui d (queryIntensity ui) s.currentTime
    o attr pk nk hsix hchk hp hn hne
  have hmemod := objData_mem_intro ui d (queryIntensity ui) s.currentTime
    o attr _ hkey hproc
  have hodnd := objData_keys_nodup ui d (queryIntensity ui) s.currentTime o
    hknd
  have hkne := isEmpty_false_of_mem _ _ hkey
  have hodne := isEmpty_false_of_mem _ _ hmemod
  have hentry := buildObjectsData_entry ui d (queryIntensity ui)
    s.currentTime s s.selection nm o hsel hfind hkne hodne
  have hkeysnd := buildObjectsData_keys_nodup ui d (queryIntensity ui)
    s.currentTime s s.selection
  have hobj : (findObject (selectS s s.selection) nm).isSome := by
    rw [show findObject (selectS s s.selection) nm = findObject s nm
        from rfl, hfind]
    rfl
  obtain ⟨hst, hky⟩ := writeEntries_sets ui s.currentTime _
    (selectS s s.selection) nm attr _ _ hkeysnd hentry hmemod hodnd hobj
  rw [apply_overshoot_eq]
  exact ⟨hst, hky⟩

/-! ### Basic algebraic facts about the computation -/

/-- C1: for every current value `c`, previous value `p`, next value `n`,
direction `d ∈ {+1, -1}` and intensity `i ≥ 0`, the overshoot value
computed by `apply_overshoot` for a processed channel — that is,
`calculate_overshoot` applied to the current value, the velocity
`(n - p) * d` and the intensity — equals `c + (n - p) * d * i`. -/
theorem overshoot_formula (c p n d i : ℚ) (hd : d = 1 ∨ d = -1)
    (hi : 0 ≤ i) :
    overshootFromNeighbors c p n d i = c + (n - p) * d * i := by
  unfold overshootFromNeighbors calculate_overshoot
  ring

/-- Witness for `overshoot_formula`, at the spec's example
`p = 0, n = 10, c = 10, d = +1, i = 1/2`: the velocity is `10` and the
result is `15`. -/
theorem overshoot_formula_witness :
    ((1 : ℚ) = 1 ∨ (1 : ℚ) = -1) ∧ (0 : ℚ) ≤ 1 / 2 ∧
    ((10 : ℚ) - 0) * 1 = 10 ∧
    overshootFromNeighbors 10 0 10 1 (1 / 2) = 15 := by
  refine ⟨Or.inl rfl, by norm_num, by norm_num, ?_⟩
  rw [overshoot_formula 10 0 10 1 (1 / 2) (Or.inl rfl) (by norm_num)]
  norm_num

/-- C9: the overshoot computation with intensity `0` is the identity on
the current value. -/
theorem calculate_overshoot_zero_intensity (value velocity : ℚ) :
    calculate_overshoot value velocity 0 = value := by
  unfold calculate_overshoot
  ring

/-- C10: the positive-direction and negative-direction overshoot values
are mirror images about the current value: their sum is `2 * c`. -/
theorem overshoot_direction_mirror (c p n i : ℚ) :
    overshootFromNeighbors c p n 1 i + overshootFromNeighbors c p n (-1) i
      = 2 * c := by
  unfold overshootFromNeighbors calculate_overshoot
  ring

/-! ### UI-level claims -/

/-- C6: `toggle_all_checkboxes` copies the "Check All" value into every
one of the six channel checkboxes; in particular toggling it to true sets
all six to true and toggling it to false sets all six to false. -/
theorem toggle_all_checkboxes_spec (ui : UIState) :
    (toggle_all_checkboxes ui).txBox = ui.checkAllBox ∧
    (toggle_all_checkboxes ui).tyBox = ui.checkAllBox ∧
    (toggle_all_checkboxes ui).tzBox = ui.checkAllBox ∧
    (toggle_all_checkboxes ui).rxBox = ui.checkAllBox ∧
    (toggle_all_checkboxes ui).ryBox = ui.checkAllBox ∧
    (toggle_all_checkboxes ui).rzBox = ui.checkAllBox := by
  refine ⟨rfl, rfl, rfl, rfl, rfl, rfl⟩

/-- C8: a request built from widget state on a button press has an
intensity in `[0, 20]` equal to the value read from the intensity
slider, and direction `+1` (Positive Direction button) or `-1`
(Negative Direction button). -/
theorem buildRequest_invariants (ui : UIState) :
    (0 ≤ (buildRequest ui 1).intensity ∧ (buildRequest ui 1).intensity ≤ 20 ∧
      (buildRequest ui 1).direction = 1 ∧
      (buildRequest ui 1).intensity = queryIntensity ui) ∧
    (0 ≤ (buildRequest ui (-1)).intensity ∧
      (buildRequest ui (-1)).intensity ≤ 20 ∧
      (buildRequest ui (-1)).direction = -1 ∧
      (buildRequest ui (-1)).intensity = queryIntensity ui) := by
  have h0 : 0 ≤ queryIntensity ui := by
    unfold queryIntensity intensityFieldMin
    exact le_max_left _ _
  have h20 : queryIntensity ui ≤ 20 := by
    unfold queryIntensity intensityFieldMin intensityFieldMax
    exact max_le (by norm_num) (min_le_left _ _)
  exact ⟨⟨h0, h20, rfl, rfl⟩, ⟨h0, h20, rfl, rfl⟩⟩

/-- C7: `apply_overshoot` restores the selection: the selection after the
call is the selection that existed when it started. -/
theorem apply_overshoot_preserves_selection (direction : ℚ) (ui : UIState)
    (s : Scene) :
    (apply_overshoot direction ui s).selection = s.selection := rfl

/-! ### Skipping and writing channels -/

/-- C2 is false as stated: in `exScene` the previous and next keyframe
values of translateX around time 5 are both 5 (equal values, distinct
key times 0 and 10), the channel is checked, and yet `apply_overshoot`
inserts a keyframe at time 5 where none existed — the channel is not
skipped.  The code compares the keyframe *times* returned by
`findKeyframe`, not the keyframe values. -/
theorem equal_values_counterexample :
    getAttrVal exObject "translateX" 0 = getAttrVal exObject "translateX" 10 ∧
    findPrevKey (curveOf exObject "translateX") exScene.currentTime =
      some 0 ∧
    findNextKey (curveOf exObject "translateX") exScene.currentTime =
      some 10 ∧
    channelChecked exUI "translateX" = true ∧
    sceneHasKeyAt exScene "pCube1" "translateX" 5 = false ∧
    sceneHasKeyAt (apply_overshoot 1 exUI exScene) "pCube1" "translateX" 5 =
      true := by
  decide

/-- C2 (amended): a channel is skipped only when a neighbor keyframe is
missing or the two neighbor keyframe *times* coincide.  When the two
neighbor keyframe *values* are equal but their times differ, the channel
is still processed: the velocity is zero, so the attribute is rewritten
with its unchanged current value and a keyframe carrying that unchanged
value is inserted at the current time. -/
theorem equal_values_channel_rewritten (d : ℚ) (ui : UIState) (s : Scene)
    (nm attr : String) (o : SceneObject) (pk nk : ℚ)
    (hfind : findObject s nm = some o)
    (hsel : nm ∈ s.selection)
    (hknd : o.keyableAttrs.Nodup)
    (hkey : attr ∈ o.keyableAttrs)
    (hsix : attr ∈ sixChannels)
    (hchk : channelChecked ui attr = true)
    (hp : findPrevKey (curveOf o attr) s.currentTime = some pk)
    (hn : findNextKey (curveOf o attr) s.currentTime = some nk)
    (hne : pk ≠ nk)
    (hv : getAttrVal o attr pk = getAttrVal o attr nk) :
    sceneStatic (apply_overshoot d ui s) nm attr =
      some (getAttrVal o attr s.currentTime) ∧
    keyAt (sceneCurve (apply_overshoot d ui s) nm attr) s.currentTime =
      some (getAttrVal o attr s.currentTime) := by
  obtain ⟨hst, hky⟩ := apply_overshoot_writes d ui s nm attr o pk nk hfind
    hsel hknd hkey hsix hchk hp hn hne
  have hval : calculate_overshoot (getAttrVal o attr s.currentTime)
      ((getAttrVal o attr nk - getAttrVal o attr pk) * d)
      (queryIntensity ui) = getAttrVal o attr s.currentTime := by
    rw [← hv]
    unfold calculate_overshoot
    ring
  rw [hval] at hst hky
  exact ⟨hst, hky⟩

/-- Witness for `equal_values_channel_rewritten` on the concrete scene
`exScene`: translateX is rewritten with its unchanged current value 5 and
a key is inserted at time 5. -/
theorem equal_values_channel_rewritten_witness :
    sceneStatic (apply_overshoot 1 exUI exScene) "pCube1" "translateX" =
      some (getAttrVal exObject "translateX" exScene.currentTime) ∧
    keyAt (sceneCurve (apply_overshoot 1 exUI exScene) "pCube1" "translateX")
      exScene.currentTime =
      some (getAttrVal exObject "translateX" exScene.currentTime) :=
  equal_values_channel_rewritten 1 exUI exScene "pCube1" "translateX"
    exObject 0 10 (by decide) (by decide) (by decide) (by decide)
    (by decide) (by decide) (by decide) (by decide) (by decide) (by decide)

/-- C3: if no keyframe exists before the current time or none exists
after it, the channel is skipped and left unmodified: neither its curve
nor its static value changes. -/
theorem missing_neighbor_skips (d : ℚ) (ui : UIState) (s : Scene)
    (nm attr : String) (o : SceneObject)
    (hfind : findObject s nm = some o)
    (hmiss : findPrevKey (curveOf o attr) s.currentTime = none ∨
             findNextKey (curveOf o attr) s.currentTime = none) :
    sceneCurve (apply_overshoot d ui s) nm attr = sceneCurve s nm attr ∧
    sceneStatic (apply_overshoot d ui s) nm attr = sceneStatic s nm attr :=
  apply_overshoot_frame d ui s nm attr o hfind
    (Or.inr (processAttr_none_of_missing ui d (queryIntensity ui)
      s.currentTime o attr hmiss))

/-- Witness for `missing_neighbor_skips`: translateY of `exObject` has no
keyframes at all, so the channel is untouched. -/
theorem missing_neighbor_skips_witness :
    sceneCurve (apply_overshoot 1 exUI exScene) "pCube1" "translateY" =
      sceneCurve exScene "pCube1" "translateY" ∧
    sceneStatic (apply_overshoot 1 exUI exScene) "pCube1" "translateY" =
      sceneStatic exScene "pCube1" "translateY" :=
  missing_neighbor_skips 1 exUI exScene "pCube1" "translateY" exObject
    (by decide) (Or.inl (by decide))

/-- C4: a channel that passes every processing condition — object
selected, channel among the six, checkbox on, keyable, both neighbor
keyframes present with distinct times — has its attribute set to the
computed overshoot value and a keyframe with that value inserted at the
current time. -/
theorem processed_channel_written (d : ℚ) (ui : UIState) (s : Scene)
    (nm attr : String) (o : SceneObject) (pk nk : ℚ)
    (hfind : findObject s nm = some o)
    (hsel : nm ∈ s.selection)
    (hknd : o.keyableAttrs.Nodup)
    (hkey : attr ∈ o.keyableAttrs)
    (hsix : attr ∈ sixChannels)
    (hchk : channelChecked ui attr = true)
    (hp : findPrevKey (curveOf o attr) s.currentTime = some pk)
    (hn : findNextKey (curveOf o attr) s.currentTime = some nk)
    (hne : pk ≠ nk) :
    sceneStatic (apply_overshoot d ui s) nm attr =
      some (calculate_overshoot (getAttrVal o attr s.currentTime)
        ((getAttrVal o attr nk - getAttrVal o attr pk) * d)
        (queryIntensity ui)) ∧
    keyAt (sceneCurve (apply_overshoot d ui s) nm attr) s.currentTime =
      some (calculate_overshoot (getAttrVal o attr s.currentTime)
        ((getAttrVal o attr nk - getAttrVal o attr pk) * d)
        (queryIntensity ui)) :=
  apply_overshoot_writes d ui s nm attr o pk nk hfind hsel hknd hkey hsix
    hchk hp hn hne

/-- Witness for `processed_channel_written` on `exScene2` (keys (0, 0)
and (10, 10) on translateX, current time 5, intensity 2): the written
value is `0 + (10 - 0) * 1 * 2 = 20`. -/
theorem processed_channel_written_witness :
    sceneStatic (apply_overshoot 1 exUI exScene2) "pSphere1" "translateX" =
      some 20 ∧
    keyAt (sceneCurve (apply_overshoot 1 exUI exScene2) "pSphere1"
      "translateX") exScene2.currentTime = some 20 := by
  obtain ⟨hst, hky⟩ := processed_channel_written 1 exUI exScene2 "pSphere1"
    "translateX" exObject2 0 10 (by decide) (by decide) (by decide)
    (by decide) (by decide) (by decide) (by decide) (by decide) (by decide)
  have ha : getAttrVal exObject2 "translateX" exScene2.currentTime = 0 := by
    decide
  have hb : getAttrVal exObject2 "translateX" 10 = 10 := by decide
  have hc : getAttrVal exObject2 "translateX" 0 = 0 := by decide
  have hq : queryIntensity exUI = 2 := by decide
  rw [ha, hb, hc, hq] at hst hky
  have hval : calculate_overshoot 0 ((10 - 0) * 1) 2 = (20 : ℚ) := by
    unfold calculate_overshoot
    norm_num
  rw [hval] at hst hky
  exact ⟨hst, hky⟩

/-- C5: a channel that is not one of the six, or whose checkbox is off,
or that is not among the object's keyable attributes (in particular every
channel of an object with no keyable translate/rotate attributes), is
silently skipped: neither its curve nor its static value changes. -/
theorem unprocessed_channel_untouched (d : ℚ) (ui : UIState) (s : Scene)
    (nm attr : String) (o : SceneObject)
    (hfind : findObject s nm = some o)
    (hskip : attr ∉ sixChannels ∨ channelChecked ui attr = false ∨
             attr ∉ o.keyableAttrs) :
    sceneCurve (apply_overshoot d ui s) nm attr = sceneCurve s nm attr ∧
    sceneStatic (apply_overshoot d ui s) nm attr = sceneStatic s nm attr := by
  apply apply_overshoot_frame d ui s nm attr o hfind
  rcases hskip with h | h | h
  · exact Or.inr (processAttr_none_of_not_six _ _ _ _ _ _ h)
  · exact Or.inr (processAttr_none_of_unchecked _ _ _ _ _ _ h)
  · exact Or.inl h

/-- Witness for `unprocessed_channel_untouched`: with the translateY
checkbox off in `exUI2`, translateY of `exObject2` is untouched. -/
theorem unprocessed_channel_untouched_witness :
    sceneCurve (apply_overshoot 1 exUI2 exScene2) "pSphere1" "translateY" =
      sceneCurve exScene2 "pSphere1" "translateY" ∧
    sceneStatic (apply_overshoot 1 exUI2 exScene2) "pSphere1" "translateY" =
      sceneStatic exScene2 "pSphere1" "translateY" :=
  unprocessed_channel_untouched 1 exUI2 exScene2 "pSphere1" "translateY"
    exObject2 (by decide) (Or.inr (Or.inl (by decide)))

end OvershootTool
